import Mathlib

/-!
Verification of the CO2 monitor aggregation and retention engine: a shallow
embedding of `src/aggregator.py` and `src/database.py`.

Modelling conventions:
* SQLite `DATETIME` values are stored as `'YYYY-MM-DD HH:MM:SS'` strings with
  one-second resolution, and every comparison the code performs on them
  (lexicographic string comparison, `strftime` field extraction) agrees with
  chronological order.  Timestamps are therefore modelled as `Nat` seconds
  since the epoch (1970-01-01 00:00:00, a Thursday).
* Python/SQLite reals are modelled as `ℚ`; Python's `round(x, 1)` is modelled
  exactly (round half to even, one decimal place).
* A table is a list of rows; SQLite `INSERT OR REPLACE` on a `UNIQUE` key is
  modelled as consing the new row after removing every row with the same key.
  `AUTOINCREMENT` surrogate ids of the aggregate tables are storage machinery
  and are not part of the model; raw measurements keep their `id` field.
* `AVG`/`MIN`/`MAX` over an empty selection are SQL `NULL`, modelled as
  `none`; `AVG(temperature_celsius)` ignores `NULL` temperatures.
-/

namespace CO2Monitor

/-- Constant `DAYTIME_START` from `database.py`. -/
def DAYTIME_START : Nat := 6

/-- Constant `DAYTIME_END` from `database.py`. -/
def DAYTIME_END : Nat := 22

/-- Constant `WORKDAY_START` from `database.py`. -/
def WORKDAY_START : Nat := 8

/-- Constant `WORKDAY_END` from `database.py`. -/
def WORKDAY_END : Nat := 18

/-- A row of the `measurements` table (`Measurement` dataclass). -/
structure Reading where
  id : Nat
  timestamp : Nat
  co2_ppm : ℤ
  temperature : Option ℚ
deriving DecidableEq

/-- A row of the `minute_stats` table, keyed by `(interval_start, interval_minutes)`. -/
structure MinuteRow where
  interval_start : Nat
  interval_minutes : Nat
  co2_min : ℤ
  co2_max : ℤ
  co2_avg : ℚ
  co2_count : Nat
  temp_min : Option ℚ
  temp_max : Option ℚ
  temp_avg : Option ℚ
deriving DecidableEq

/-- A row of the `hourly_stats` table, keyed by `hour_start`. -/
structure HourRow where
  hour_start : Nat
  co2_min : ℤ
  co2_max : ℤ
  co2_avg : ℚ
  co2_count : Nat
  temp_min : Option ℚ
  temp_max : Option ℚ
  temp_avg : Option ℚ
  is_workday : Bool
  is_daytime : Bool
  hour_of_day : Nat
  day_of_week : Nat
deriving DecidableEq

/-- A row of the `daily_stats` table, keyed by `date` (a day index). -/
structure DayRow where
  date : Nat
  co2_min : ℤ
  co2_max : ℤ
  co2_avg : ℚ
  co2_day_avg : Option ℚ
  co2_night_avg : Option ℚ
  temp_min : Option ℚ
  temp_max : Option ℚ
  temp_avg : Option ℚ
  measurement_count : Nat
  is_weekend : Bool
deriving DecidableEq

/-- A row of the `pattern_averages` table, keyed by `(pattern_type, pattern_key)`. -/
structure PatternRow where
  pattern_type : String
  pattern_key : String
  co2_avg : Option ℚ
  temp_avg : Option ℚ
  sample_count : Nat
  last_updated : Nat
deriving DecidableEq

/-- The whole SQLite database state. -/
@[ext]
structure DB where
  measurements : List Reading
  minute_stats : List MinuteRow
  hourly_stats : List HourRow
  daily_stats : List DayRow
  pattern_averages : List PatternRow
deriving DecidableEq

/-! ## Calendar classifier (pure timestamp arithmetic) -/

/-- SQLite hour extraction, the `strftime` hour field: hour of day of a timestamp. -/
def hourOfDay (t : Nat) : Nat := t % 86400 / 3600

/-- Python `t.date()`: day index of a timestamp. -/
def dateOf (t : Nat) : Nat := t / 86400

/-- Python `date.weekday()` (Monday = 0) of a day index; the epoch day was a Thursday. -/
def weekdayOfDate (d : Nat) : Nat := (d + 3) % 7

/-- Python `datetime.weekday()` of a timestamp. -/
def weekdayOf (t : Nat) : Nat := weekdayOfDate (dateOf t)

/-- Floor a timestamp to its hour (`replace(minute=0, second=0, microsecond=0)`). -/
def hourFloor (t : Nat) : Nat := t / 3600 * 3600

/-- Floor a timestamp to a minute-interval boundary
(`replace(minute=(minute // w) * w, second=0, microsecond=0)`). -/
def minuteFloor (t : Nat) (w : Nat) : Nat := t - t % 60 - 60 * (t / 60 % 60 % w)

/-! ## SQL aggregate functions -/

/-- SQL `MIN` over a selection (`NULL` on an empty selection). -/
def sqlMin {α : Type} [LinearOrder α] : List α → Option α
  | [] => none
  | x :: xs => some (xs.foldl min x)

/-- SQL `MAX` over a selection (`NULL` on an empty selection). -/
def sqlMax {α : Type} [LinearOrder α] : List α → Option α
  | [] => none
  | x :: xs => some (xs.foldl max x)

/-- SQL `AVG` over a rational selection (`NULL` on an empty selection). -/
def sqlAvg : List ℚ → Option ℚ
  | [] => none
  | x :: xs => some ((x :: xs).sum / (x :: xs).length)

/-- SQL `AVG` over an integer selection. -/
def sqlAvgInt (l : List ℤ) : Option ℚ := sqlAvg (l.map (fun (z : ℤ) => (z : ℚ)))

/-- Python `round` to the nearest integer (round half to even). -/
def pyRoundInt (q : ℚ) : ℤ :=
  if q - ⌊q⌋ < 1/2 then ⌊q⌋
  else if 1/2 < q - ⌊q⌋ then ⌊q⌋ + 1
  else if ⌊q⌋ % 2 = 0 then ⌊q⌋ else ⌊q⌋ + 1

/-- Python `round(q, 1)`. -/
def round1 (q : ℚ) : ℚ := (pyRoundInt (q * 10) : ℚ) / 10

/-- The `round(x, 1) if x else None` pattern from `aggregator.py`: the guard is
Python truthiness, so it maps both `NULL` and an average of exactly `0` to `None`. -/
def roundIfTruthy : Option ℚ → Option ℚ
  | none => none
  | some q => if q = 0 then none else some (round1 q)

/-! ## Window selection -/

/-- The readings matched by `WHERE timestamp >= start AND timestamp < stop`. -/
def windowOf (meas : List Reading) (start stop : Nat) : List Reading :=
  meas.filter (fun r => start ≤ r.timestamp ∧ r.timestamp < stop)

/-- CO2 values of a selection. -/
def co2Of (l : List Reading) : List ℤ := l.map (fun r => r.co2_ppm)

/-- Non-`NULL` temperature values of a selection (SQL aggregates skip `NULL`). -/
def tempsOf (l : List Reading) : List ℚ := l.filterMap (fun r => r.temperature)

/-! ## `database.py` store operations -/

/-- Method `CO2Database.insert_minute_stats`: `INSERT OR REPLACE` keyed by
`(interval_start, interval_minutes)`. -/
def insert_minute_stats (db : DB) (interval_start interval_minutes : Nat)
    (co2_min co2_max : ℤ) (co2_avg : ℚ) (co2_count : Nat)
    (temp_min temp_max temp_avg : Option ℚ) : DB :=
  let row : MinuteRow :=
    { interval_start, interval_minutes, co2_min, co2_max, co2_avg, co2_count,
      temp_min, temp_max, temp_avg }
  { db with minute_stats :=
      (row :: db.minute_stats.filter
        (fun r => ¬(r.interval_start = interval_start ∧
                    r.interval_minutes = interval_minutes))) }

/-- The `hourly_stats` row built by `CO2Database.insert_hourly_stats`, calendar
tags included. -/
def mkHourRow (hour_start : Nat) (co2_min co2_max : ℤ) (co2_avg : ℚ)
    (co2_count : Nat) (temp_min temp_max temp_avg : Option ℚ) : HourRow :=
  let hour_of_day := hourOfDay hour_start
  let day_of_week := weekdayOf hour_start
  { hour_start, co2_min, co2_max, co2_avg, co2_count, temp_min, temp_max, temp_avg,
    is_workday := decide (day_of_week < 5 ∧
      WORKDAY_START ≤ hour_of_day ∧ hour_of_day < WORKDAY_END),
    is_daytime := decide (DAYTIME_START ≤ hour_of_day ∧ hour_of_day < DAYTIME_END),
    hour_of_day, day_of_week }

/-- Method `CO2Database.insert_hourly_stats`: `INSERT OR REPLACE` keyed by `hour_start`. -/
def insert_hourly_stats (db : DB) (hour_start : Nat) (co2_min co2_max : ℤ)
    (co2_avg : ℚ) (co2_count : Nat) (temp_min temp_max temp_avg : Option ℚ) : DB :=
  { db with hourly_stats :=
      (mkHourRow hour_start co2_min co2_max co2_avg co2_count temp_min temp_max temp_avg ::
        db.hourly_stats.filter (fun r => ¬ r.hour_start = hour_start)) }

/-- Method `CO2Database.insert_daily_stats`: `INSERT OR REPLACE` keyed by `date`. -/
def insert_daily_stats (db : DB) (stat_date : Nat) (co2_min co2_max : ℤ)
    (co2_avg : ℚ) (co2_day_avg co2_night_avg : Option ℚ)
    (temp_min temp_max temp_avg : Option ℚ) (measurement_count : Nat) : DB :=
  let row : DayRow :=
    { date := stat_date, co2_min, co2_max, co2_avg, co2_day_avg, co2_night_avg,
      temp_min, temp_max, temp_avg, measurement_count,
      is_weekend := decide (5 ≤ weekdayOfDate stat_date) }
  { db with daily_stats :=
      (row :: db.daily_stats.filter (fun r => ¬ r.date = stat_date)) }

/-- Method `CO2Database.delete_older_than`: delete measurements with
`timestamp < now - days`, returning the number of deleted rows.
`now` is `datetime.now()`; `days` may be any Python `int`. -/
def delete_older_than (db : DB) (now : Nat) (days : ℤ) : Nat × DB :=
  let keep := db.measurements.filter
    (fun r => ¬((r.timestamp : ℤ) < (now : ℤ) - days * 86400))
  (db.measurements.length - keep.length, { db with measurements := keep })

/-- Method `CO2Database.get_range`: `WHERE timestamp BETWEEN start AND stop ORDER BY timestamp`.
SQL `BETWEEN` is inclusive at both ends. -/
def get_range (db : DB) (start stop : Nat) : List Reading :=
  (db.measurements.filter (fun r => start ≤ r.timestamp ∧ r.timestamp ≤ stop)).insertionSort
    (fun a b => a.timestamp ≤ b.timestamp)

/-! ## `aggregator.py` aggregation engine

Each operation mirrors one method of `Aggregator`: select the half-open
window, bail out returning `False` when `COUNT(*)` is zero, otherwise upsert
one bucket row and return `True`. -/

/-- Method `Aggregator.aggregate_minute_interval`. -/
def aggregate_minute_interval (db : DB) (interval_start : Nat)
    (interval_minutes : Nat) : Bool × DB :=
  let w := windowOf db.measurements interval_start
    (interval_start + interval_minutes * 60)
  if w.length = 0 then (false, db)
  else
    (true, insert_minute_stats db interval_start interval_minutes
      ((sqlMin (co2Of w)).getD 0) ((sqlMax (co2Of w)).getD 0)
      (round1 ((sqlAvgInt (co2Of w)).getD 0)) w.length
      (sqlMin (tempsOf w)) (sqlMax (tempsOf w))
      (roundIfTruthy (sqlAvg (tempsOf w))))

/-- Method `Aggregator.aggregate_hour`. -/
def aggregate_hour (db : DB) (hour_start : Nat) : Bool × DB :=
  let w := windowOf db.measurements hour_start (hour_start + 3600)
  if w.length = 0 then (false, db)
  else
    (true, insert_hourly_stats db hour_start
      ((sqlMin (co2Of w)).getD 0) ((sqlMax (co2Of w)).getD 0)
      (round1 ((sqlAvgInt (co2Of w)).getD 0)) w.length
      (sqlMin (tempsOf w)) (sqlMax (tempsOf w))
      (roundIfTruthy (sqlAvg (tempsOf w))))

/-- The daytime sub-selection of `aggregate_day`
(`strftime hour >= DAYTIME_START AND < DAYTIME_END`). -/
def dayWindowOf (l : List Reading) : List Reading :=
  l.filter (fun r => DAYTIME_START ≤ hourOfDay r.timestamp ∧
                     hourOfDay r.timestamp < DAYTIME_END)

/-- The night sub-selection of `aggregate_day`
(`strftime hour >= DAYTIME_END OR < DAYTIME_START`). -/
def nightWindowOf (l : List Reading) : List Reading :=
  l.filter (fun r => DAYTIME_END ≤ hourOfDay r.timestamp ∨
                     hourOfDay r.timestamp < DAYTIME_START)

/-- Method `Aggregator.aggregate_day`; `stat_date` is a day index, the window is
`[date 00:00, date+1d 00:00)`. -/
def aggregate_day (db : DB) (stat_date : Nat) : Bool × DB :=
  let w := windowOf db.measurements (stat_date * 86400) (stat_date * 86400 + 86400)
  if w.length = 0 then (false, db)
  else
    (true, insert_daily_stats db stat_date
      ((sqlMin (co2Of w)).getD 0) ((sqlMax (co2Of w)).getD 0)
      (round1 ((sqlAvgInt (co2Of w)).getD 0))
      (roundIfTruthy (sqlAvgInt (co2Of (dayWindowOf w))))
      (roundIfTruthy (sqlAvgInt (co2Of (nightWindowOf w))))
      (sqlMin (tempsOf w)) (sqlMax (tempsOf w))
      (roundIfTruthy (sqlAvg (tempsOf w)))
      w.length)

/-! ## Retention manager

`get_database_size_mb` reads the size of the database file, which is not a
function of the logical state alone (`VACUUM` shrinks the file without
changing any row).  It is modelled by an arbitrary size oracle
`sizeFn : DB → ℚ`, read once per loop iteration exactly as the code reads it;
`VACUUM` itself has no effect on the logical state.  The retention theorems
are proved for every oracle. -/

/-- The progressive-deletion loop of `CO2Database.cleanup_if_size_exceeded`:
`while current_size > max_size_mb and days_to_delete > 1`. -/
def cleanupLoop (sizeFn : DB → ℚ) (now : Nat) (maxMB : ℚ) (db : DB)
    (daysToDelete : ℤ) (acc : Nat) : Nat × DB :=
  if maxMB < sizeFn db ∧ 1 < daysToDelete then
    cleanupLoop sizeFn now maxMB (delete_older_than db now daysToDelete).2
      (daysToDelete - 1) (acc + (delete_older_than db now daysToDelete).1)
  else (acc, db)
termination_by (daysToDelete - 1).toNat
decreasing_by omega

/-- Method `CO2Database.cleanup_if_size_exceeded`: enforce `days_to_keep`, then while
still over `max_size_gb * 1024` MB progressively delete older data, one day at
a time, down to the loop bound. -/
def cleanup_if_size_exceeded (sizeFn : DB → ℚ) (now : Nat) (db : DB)
    (max_size_gb : ℚ) (days_to_keep : ℤ) : Nat × DB :=
  let maxMB := max_size_gb * 1024
  let first := delete_older_than db now days_to_keep
  if sizeFn first.2 ≤ maxMB then first
  else cleanupLoop sizeFn now maxMB first.2 (days_to_keep - 1) first.1

/-! ## Backfill driver (`Aggregator.backfill_all`) -/

/-- Query `SELECT MIN(timestamp) FROM measurements`. -/
def minTimestamp (meas : List Reading) : Option Nat :=
  sqlMin (meas.map (fun r => r.timestamp))

/-- Query `SELECT MAX(timestamp) FROM measurements`. -/
def maxTimestamp (meas : List Reading) : Option Nat :=
  sqlMax (meas.map (fun r => r.timestamp))

/-- The minute-interval backfill loop: `while current <= end`, stepping by
`interval` minutes.  The code only runs it for `interval ∈ {5, 10, 15}`; the
`0 < w` guard makes the model total for the degenerate width 0, where the
Python loop would not terminate anyway. -/
def minuteLoop (w : Nat) (db : DB) (cur stop : Nat) : DB :=
  if cur ≤ stop ∧ 0 < w then
    minuteLoop w (aggregate_minute_interval db cur w).2 (cur + w * 60) stop
  else db
termination_by stop + w * 60 - cur
decreasing_by omega

/-- The hourly backfill loop: `while current_hour <= end`, stepping by 1 hour. -/
def hourLoop (db : DB) (cur stop : Nat) : DB :=
  if cur ≤ stop then hourLoop (aggregate_hour db cur).2 (cur + 3600) stop
  else db
termination_by stop + 3600 - cur
decreasing_by omega

/-- The daily backfill loop: `while current_date <= end.date()`, stepping by
1 day over day indices. -/
def dayLoop (db : DB) (cur stop : Nat) : DB :=
  if cur ≤ stop then dayLoop (aggregate_day db cur).2 (cur + 1) stop
  else db
termination_by stop + 1 - cur
decreasing_by omega

/-- Method `Aggregator.backfill_all`: rebuild every aggregate from the raw
measurement range — the three minute widths, then hours, then days. -/
def backfill_all (db : DB) : DB :=
  match minTimestamp db.measurements, maxTimestamp db.measurements with
  | some start, some stop =>
      let db1 := minuteLoop 5 db (minuteFloor start 5) stop
      let db2 := minuteLoop 10 db1 (minuteFloor start 10) stop
      let db3 := minuteLoop 15 db2 (minuteFloor start 15) stop
      let db4 := hourLoop db3 (hourFloor start) stop
      dayLoop db4 (dateOf start) (dateOf stop)
  | _, _ => db

/-! ## Helper lemmas on the SQL aggregates -/

theorem foldl_min_mem {α : Type} [LinearOrder α] (xs : List α) (x : α) :
    xs.foldl min x = x ∨ xs.foldl min x ∈ xs := by
  induction xs generalizing x with
  | nil => exact Or.inl rfl
  | cons y ys ih =>
    have hstep : List.foldl min x (y :: ys) = List.foldl min (min x y) ys := rfl
    rcases ih (min x y) with h | h
    · rcases min_cases x y with ⟨he, _⟩ | ⟨he, _⟩
      · exact Or.inl (by rw [hstep, h, he])
      · exact Or.inr (by rw [hstep, h, he]; exact List.mem_cons_self y ys)
    · exact Or.inr (List.mem_cons_of_mem _ (hstep ▸ h))

theorem foldl_min_le {α : Type} [LinearOrder α] (xs : List α) (x : α) :
    xs.foldl min x ≤ x ∧ ∀ y ∈ xs, xs.foldl min x ≤ y := by
  induction xs generalizing x with
  | nil => exact ⟨le_refl x, by simp⟩
  | cons z zs ih =>
    refine ⟨le_trans (ih (min x z)).1 (min_le_left x z), ?_⟩
    intro y hy
    rcases List.mem_cons.mp hy with rfl | hy
    · exact le_trans (ih (min x y)).1 (min_le_right x y)
    · exact (ih (min x z)).2 y hy

theorem foldl_max_mem {α : Type} [LinearOrder α] (xs : List α) (x : α) :
    xs.foldl max x = x ∨ xs.foldl max x ∈ xs := by
  induction xs generalizing x with
  | nil => exact Or.inl rfl
  | cons y ys ih =>
    have hstep : List.foldl max x (y :: ys) = List.foldl max (max x y) ys := rfl
    rcases ih (max x y) with h | h
    · rcases max_cases x y with ⟨he, _⟩ | ⟨he, _⟩
      · exact Or.inl (by rw [hstep, h, he])
      · exact Or.inr (by rw [hstep, h, he]; exact List.mem_cons_self y ys)
    · exact Or.inr (List.mem_cons_of_mem _ (hstep ▸ h))

theorem le_foldl_max {α : Type} [LinearOrder α] (xs : List α) (x : α) :
    x ≤ xs.foldl max x ∧ ∀ y ∈ xs, y ≤ xs.foldl max x := by
  induction xs generalizing x with
  | nil => exact ⟨le_refl x, by simp⟩
  | cons z zs ih =>
    refine ⟨le_trans (le_max_left x z) (ih (max x z)).1, ?_⟩
    intro y hy
    rcases List.mem_cons.mp hy with rfl | hy
    · exact le_trans (le_max_right x y) (ih (max x y)).1
    · exact (ih (max x z)).2 y hy

theorem sqlMin_mem {α : Type} [LinearOrder α] {l : List α} {m : α}
    (h : sqlMin l = some m) : m ∈ l := by
  cases l with
  | nil => simp [sqlMin] at h
  | cons x xs =>
    simp only [sqlMin, Option.some.injEq] at h
    rcases foldl_min_mem xs x with he | he
    · simp [← h, he]
    · exact List.mem_cons_of_mem _ (h ▸ he)

theorem sqlMin_le {α : Type} [LinearOrder α] {l : List α} {m : α}
    (h : sqlMin l = some m) : ∀ y ∈ l, m ≤ y := by
  cases l with
  | nil => simp [sqlMin] at h
  | cons x xs =>
    simp only [sqlMin, Option.some.injEq] at h
    intro y hy
    rcases List.mem_cons.mp hy with rfl | hy
    · exact h ▸ (foldl_min_le xs y).1
    · exact h ▸ (foldl_min_le xs x).2 y hy

theorem sqlMax_mem {α : Type} [LinearOrder α] {l : List α} {m : α}
    (h : sqlMax l = some m) : m ∈ l := by
  cases l with
  | nil => simp [sqlMax] at h
  | cons x xs =>
    simp only [sqlMax, Option.some.injEq] at h
    rcases foldl_max_mem xs x with he | he
    · simp [← h, he]
    · exact List.mem_cons_of_mem _ (h ▸ he)

theorem le_sqlMax {α : Type} [LinearOrder α] {l : List α} {m : α}
    (h : sqlMax l = some m) : ∀ y ∈ l, y ≤ m := by
  cases l with
  | nil => simp [sqlMax] at h
  | cons x xs =>
    simp only [sqlMax, Option.some.injEq] at h
    intro y hy
    rcases List.mem_cons.mp hy with rfl | hy
    · exact h ▸ (le_foldl_max xs y).1
    · exact h ▸ (le_foldl_max xs x).2 y hy

theorem sqlMin_isSome {α : Type} [LinearOrder α] {l : List α} (h : l ≠ []) :
    ∃ m, sqlMin l = some m := by
  cases l with
  | nil => exact absurd rfl h
  | cons x xs => exact ⟨xs.foldl min x, rfl⟩

theorem sqlMax_isSome {α : Type} [LinearOrder α] {l : List α} (h : l ≠ []) :
    ∃ m, sqlMax l = some m := by
  cases l with
  | nil => exact absurd rfl h
  | cons x xs => exact ⟨xs.foldl max x, rfl⟩

theorem sqlAvg_eq {l : List ℚ} (h : l ≠ []) :
    sqlAvg l = some (l.sum / l.length) := by
  cases l with
  | nil => exact absurd rfl h
  | cons x xs => rfl

/-! ## Characterization of the aggregation operations -/

/-- The `minute_stats` row `aggregate_minute_interval` computes for a
non-empty window. -/
def minuteRowFor (meas : List Reading) (t w : Nat) : MinuteRow :=
  let s := windowOf meas t (t + w * 60)
  { interval_start := t, interval_minutes := w,
    co2_min := (sqlMin (co2Of s)).getD 0, co2_max := (sqlMax (co2Of s)).getD 0,
    co2_avg := round1 ((sqlAvgInt (co2Of s)).getD 0), co2_count := s.length,
    temp_min := sqlMin (tempsOf s), temp_max := sqlMax (tempsOf s),
    temp_avg := roundIfTruthy (sqlAvg (tempsOf s)) }

/-- The `hourly_stats` row `aggregate_hour` computes for a non-empty window. -/
def hourRowFor (meas : List Reading) (t : Nat) : HourRow :=
  let s := windowOf meas t (t + 3600)
  mkHourRow t ((sqlMin (co2Of s)).getD 0) ((sqlMax (co2Of s)).getD 0)
    (round1 ((sqlAvgInt (co2Of s)).getD 0)) s.length
    (sqlMin (tempsOf s)) (sqlMax (tempsOf s)) (roundIfTruthy (sqlAvg (tempsOf s)))

/-- The `daily_stats` row `aggregate_day` computes for a non-empty window. -/
def dayRowFor (meas : List Reading) (d : Nat) : DayRow :=
  let s := windowOf meas (d * 86400) (d * 86400 + 86400)
  { date := d,
    co2_min := (sqlMin (co2Of s)).getD 0, co2_max := (sqlMax (co2Of s)).getD 0,
    co2_avg := round1 ((sqlAvgInt (co2Of s)).getD 0),
    co2_day_avg := roundIfTruthy (sqlAvgInt (co2Of (dayWindowOf s))),
    co2_night_avg := roundIfTruthy (sqlAvgInt (co2Of (nightWindowOf s))),
    temp_min := sqlMin (tempsOf s), temp_max := sqlMax (tempsOf s),
    temp_avg := roundIfTruthy (sqlAvg (tempsOf s)),
    measurement_count := s.length,
    is_weekend := decide (5 ≤ weekdayOfDate d) }

theorem aggregate_minute_empty {db : DB} {t w : Nat}
    (h : windowOf db.measurements t (t + w * 60) = []) :
    aggregate_minute_interval db t w = (false, db) := by
  simp [aggregate_minute_interval, h]

theorem aggregate_minute_pos {db : DB} {t w : Nat}
    (h : windowOf db.measurements t (t + w * 60) ≠ []) :
    aggregate_minute_interval db t w =
      (true, { db with minute_stats :=
        (minuteRowFor db.measurements t w :: db.minute_stats.filter
          (fun r => ¬(r.interval_start = t ∧ r.interval_minutes = w))) }) := by
  rw [aggregate_minute_interval, if_neg (by simpa using h)]
  rfl

theorem aggregate_hour_empty {db : DB} {t : Nat}
    (h : windowOf db.measurements t (t + 3600) = []) :
    aggregate_hour db t = (false, db) := by
  simp [aggregate_hour, h]

theorem aggregate_hour_pos {db : DB} {t : Nat}
    (h : windowOf db.measurements t (t + 3600) ≠ []) :
    aggregate_hour db t =
      (true, { db with hourly_stats :=
        (hourRowFor db.measurements t ::
          db.hourly_stats.filter (fun r => ¬ r.hour_start = t)) }) := by
  rw [aggregate_hour, if_neg (by simpa using h)]
  rfl

theorem aggregate_day_empty {db : DB} {d : Nat}
    (h : windowOf db.measurements (d * 86400) (d * 86400 + 86400) = []) :
    aggregate_day db d = (false, db) := by
  simp [aggregate_day, h]

theorem aggregate_day_pos {db : DB} {d : Nat}
    (h : windowOf db.measurements (d * 86400) (d * 86400 + 86400) ≠ []) :
    aggregate_day db d =
      (true, { db with daily_stats :=
        (dayRowFor db.measurements d ::
          db.daily_stats.filter (fun r => ¬ r.date = d)) }) := by
  rw [aggregate_day, if_neg (by simpa using h)]
  rfl

/-! ## Frame lemmas: what each operation leaves untouched -/

theorem aggregate_minute_frame (db : DB) (t w : Nat) :
    (aggregate_minute_interval db t w).2.measurements = db.measurements ∧
    (aggregate_minute_interval db t w).2.hourly_stats = db.hourly_stats ∧
    (aggregate_minute_interval db t w).2.daily_stats = db.daily_stats ∧
    (aggregate_minute_interval db t w).2.pattern_averages = db.pattern_averages := by
  rw [aggregate_minute_interval]
  split <;> exact ⟨rfl, rfl, rfl, rfl⟩

theorem aggregate_hour_frame (db : DB) (t : Nat) :
    (aggregate_hour db t).2.measurements = db.measurements ∧
    (aggregate_hour db t).2.minute_stats = db.minute_stats ∧
    (aggregate_hour db t).2.daily_stats = db.daily_stats ∧
    (aggregate_hour db t).2.pattern_averages = db.pattern_averages := by
  rw [aggregate_hour]
  split <;> exact ⟨rfl, rfl, rfl, rfl⟩

theorem aggregate_day_frame (db : DB) (d : Nat) :
    (aggregate_day db d).2.measurements = db.measurements ∧
    (aggregate_day db d).2.minute_stats = db.minute_stats ∧
    (aggregate_day db d).2.hourly_stats = db.hourly_stats ∧
    (aggregate_day db d).2.pattern_averages = db.pattern_averages := by
  rw [aggregate_day]
  split <;> exact ⟨rfl, rfl, rfl, rfl⟩

/-! ## Upsert lookup lemmas -/

theorem filter_upsert_hour_self (t : Nat) (row : HourRow) (l : List HourRow)
    (hrow : row.hour_start = t) :
    (row :: l.filter (fun r => ¬ r.hour_start = t)).filter
      (fun r => r.hour_start = t) = [row] := by
  rw [List.filter_cons, List.filter_filter]
  rw [if_pos (by simpa using hrow)]
  simp

theorem filter_upsert_hour_ne (t K : Nat) (row : HourRow) (l : List HourRow)
    (hrow : row.hour_start = t) (h : ¬ t = K) :
    (row :: l.filter (fun r => ¬ r.hour_start = t)).filter
      (fun r => r.hour_start = K) = l.filter (fun r => r.hour_start = K) := by
  rw [List.filter_cons, List.filter_filter]
  rw [if_neg (by simp [hrow]; omega)]
  refine List.filter_congr (fun a _ => ?_)
  by_cases ha : a.hour_start = K
  · have hk : ¬ K = t := fun hc => h hc.symm
    simp [ha, hk]
  · simp [ha]

theorem filter_upsert_day_self (d : Nat) (row : DayRow) (l : List DayRow)
    (hrow : row.date = d) :
    (row :: l.filter (fun r => ¬ r.date = d)).filter
      (fun r => r.date = d) = [row] := by
  rw [List.filter_cons, List.filter_filter]
  rw [if_pos (by simpa using hrow)]
  simp

theorem filter_upsert_minute_self (t w : Nat) (row : MinuteRow) (l : List MinuteRow)
    (h1 : row.interval_start = t) (h2 : row.interval_minutes = w) :
    (row :: l.filter (fun r => ¬(r.interval_start = t ∧
        r.interval_minutes = w))).filter
      (fun r => r.interval_start = t ∧ r.interval_minutes = w) = [row] := by
  rw [List.filter_cons, List.filter_filter]
  rw [if_pos (by simp [h1, h2])]
  simp

theorem filter_not_key_idem_hour (t : Nat) (row : HourRow) (l : List HourRow)
    (hrow : row.hour_start = t) :
    (row :: l.filter (fun r => ¬ r.hour_start = t)).filter
      (fun r => ¬ r.hour_start = t) = l.filter (fun r => ¬ r.hour_start = t) := by
  rw [List.filter_cons, List.filter_filter]
  rw [if_neg (by simp [hrow])]
  refine List.filter_congr (fun a _ => by by_cases ha : a.hour_start = t <;> simp [ha])

theorem filter_not_key_idem_day (d : Nat) (row : DayRow) (l : List DayRow)
    (hrow : row.date = d) :
    (row :: l.filter (fun r => ¬ r.date = d)).filter
      (fun r => ¬ r.date = d) = l.filter (fun r => ¬ r.date = d) := by
  rw [List.filter_cons, List.filter_filter]
  rw [if_neg (by simp [hrow])]
  refine List.filter_congr (fun a _ => by by_cases ha : a.date = d <;> simp [ha])

theorem filter_not_key_idem_minute (t w : Nat) (row : MinuteRow) (l : List MinuteRow)
    (h1 : row.interval_start = t) (h2 : row.interval_minutes = w) :
    (row :: l.filter (fun r => ¬(r.interval_start = t ∧ r.interval_minutes = w))).filter
        (fun r => ¬(r.interval_start = t ∧ r.interval_minutes = w))
      = l.filter (fun r => ¬(r.interval_start = t ∧ r.interval_minutes = w)) := by
  rw [List.filter_cons, List.filter_filter]
  rw [if_neg (by simp [h1, h2])]
  refine List.filter_congr (fun a _ => ?_)
  by_cases ha : a.interval_start = t ∧ a.interval_minutes = w <;> simp [ha]

/-! ## Idempotence of the three aggregation operations -/

theorem aggregate_hour_idem (db : DB) (t : Nat) :
    aggregate_hour (aggregate_hour db t).2 t = aggregate_hour db t := by
  by_cases h : windowOf db.measurements t (t + 3600) = []
  · rw [aggregate_hour_empty h]
    exact aggregate_hour_empty h
  · have h2 : windowOf (aggregate_hour db t).2.measurements t (t + 3600) ≠ [] := by
      rw [(aggregate_hour_frame db t).1]; exact h
    rw [aggregate_hour_pos h2, aggregate_hour_pos h]
    simp only [Prod.mk.injEq, true_and]
    refine DB.ext rfl rfl ?_ rfl rfl
    exact congrArg₂ List.cons rfl (filter_not_key_idem_hour t _ _ rfl)

theorem aggregate_minute_idem (db : DB) (t w : Nat) :
    aggregate_minute_interval (aggregate_minute_interval db t w).2 t w
      = aggregate_minute_interval db t w := by
  by_cases h : windowOf db.measurements t (t + w * 60) = []
  · rw [aggregate_minute_empty h]
    exact aggregate_minute_empty h
  · have h2 : windowOf (aggregate_minute_interval db t w).2.measurements
        t (t + w * 60) ≠ [] := by
      rw [(aggregate_minute_frame db t w).1]; exact h
    rw [aggregate_minute_pos h2, aggregate_minute_pos h]
    simp only [Prod.mk.injEq, true_and]
    refine DB.ext rfl ?_ rfl rfl rfl
    exact congrArg₂ List.cons rfl (filter_not_key_idem_minute t w _ _ rfl rfl)

theorem aggregate_day_idem (db : DB) (d : Nat) :
    aggregate_day (aggregate_day db d).2 d = aggregate_day db d := by
  by_cases h : windowOf db.measurements (d * 86400) (d * 86400 + 86400) = []
  · rw [aggregate_day_empty h]
    exact aggregate_day_empty h
  · have h2 : windowOf (aggregate_day db d).2.measurements
        (d * 86400) (d * 86400 + 86400) ≠ [] := by
      rw [(aggregate_day_frame db d).1]; exact h
    rw [aggregate_day_pos h2, aggregate_day_pos h]
    simp only [Prod.mk.injEq, true_and]
    refine DB.ext rfl rfl rfl ?_ rfl
    exact congrArg₂ List.cons rfl (filter_not_key_idem_day d _ _ rfl)

/-- C1: for every window start and every resolution (any minute width, hour,
day), re-running the aggregation operation on an unchanged raw store returns
the same flag and leaves the whole database state — in particular the stored
bucket row for that key — exactly as the first run left it: the upsert is a
full replace, never an incremental merge. -/
theorem aggregation_idempotent (db : DB) (t hs w d : Nat) :
    aggregate_minute_interval (aggregate_minute_interval db t w).2 t w
        = aggregate_minute_interval db t w ∧
    aggregate_hour (aggregate_hour db hs).2 hs = aggregate_hour db hs ∧
    aggregate_day (aggregate_day db d).2 d = aggregate_day db d :=
  ⟨aggregate_minute_idem db t w, aggregate_hour_idem db hs, aggregate_day_idem db d⟩

/-! ## The reference example of the specification -/

/-- A raw store holding exactly three readings inside the hour window
starting at 14:00 of the epoch day (timestamp 50400): 500 ppm at 14:03
(50580), 600 ppm at 14:17 (51420) and 550 ppm at 14:59 (53940). -/
def exampleDB : DB :=
  { measurements :=
      [⟨1, 50580, 500, none⟩, ⟨2, 51420, 600, none⟩, ⟨3, 53940, 550, none⟩],
    minute_stats := [], hourly_stats := [], daily_stats := [],
    pattern_averages := [] }

unseal Rat.mul Rat.inv Rat.add Rat.sub in
/-- C3: on the reference raw store (500 ppm at 14:03, 600 ppm at 14:17,
550 ppm at 14:59), `aggregate_hour` at 14:00 reports data produced, the
stored `hourly_stats` bucket is exactly one row with `co2_min = 500`,
`co2_max = 600`, `co2_avg = 550.0`, `co2_count = 3`, and a second identical
call returns the same flag and leaves the stored values unchanged. -/
theorem hour_example_aggregation :
    (aggregate_hour exampleDB 50400).1 = true ∧
    ((aggregate_hour exampleDB 50400).2.hourly_stats.map
      (fun r => (r.co2_min, r.co2_max, r.co2_avg, r.co2_count)))
        = [(500, 600, (550 : ℚ), 3)] ∧
    aggregate_hour (aggregate_hour exampleDB 50400).2 50400
        = (true, (aggregate_hour exampleDB 50400).2) := by
  decide

/-! ## No-data behaviour of every resolution -/

/-- C4: at every resolution, a window with zero readings makes the operation
return `False` and leave the whole database state unchanged, while a window
with at least one reading makes it return `True` and upsert exactly one
bucket row for the window's key, leaving rows under other keys and every
other store unchanged. -/
theorem no_data_behaviour (db : DB) (t hs w d : Nat) :
    (windowOf db.measurements t (t + w * 60) = [] →
        aggregate_minute_interval db t w = (false, db)) ∧
    (windowOf db.measurements t (t + w * 60) ≠ [] →
        (aggregate_minute_interval db t w).1 = true ∧
        (aggregate_minute_interval db t w).2.minute_stats.countP
            (fun r => r.interval_start = t ∧ r.interval_minutes = w) = 1 ∧
        (aggregate_minute_interval db t w).2.minute_stats.filter
            (fun r => ¬(r.interval_start = t ∧ r.interval_minutes = w))
          = db.minute_stats.filter
            (fun r => ¬(r.interval_start = t ∧ r.interval_minutes = w)) ∧
        (aggregate_minute_interval db t w).2.measurements = db.measurements ∧
        (aggregate_minute_interval db t w).2.hourly_stats = db.hourly_stats ∧
        (aggregate_minute_interval db t w).2.daily_stats = db.daily_stats ∧
        (aggregate_minute_interval db t w).2.pattern_averages
          = db.pattern_averages) ∧
    (windowOf db.measurements hs (hs + 3600) = [] →
        aggregate_hour db hs = (false, db)) ∧
    (windowOf db.measurements hs (hs + 3600) ≠ [] →
        (aggregate_hour db hs).1 = true ∧
        (aggregate_hour db hs).2.hourly_stats.countP
            (fun r => r.hour_start = hs) = 1 ∧
        (aggregate_hour db hs).2.hourly_stats.filter
            (fun r => ¬ r.hour_start = hs)
          = db.hourly_stats.filter (fun r => ¬ r.hour_start = hs) ∧
        (aggregate_hour db hs).2.measurements = db.measurements ∧
        (aggregate_hour db hs).2.minute_stats = db.minute_stats ∧
        (aggregate_hour db hs).2.daily_stats = db.daily_stats ∧
        (aggregate_hour db hs).2.pattern_averages = db.pattern_averages) ∧
    (windowOf db.measurements (d * 86400) (d * 86400 + 86400) = [] →
        aggregate_day db d = (false, db)) ∧
    (windowOf db.measurements (d * 86400) (d * 86400 + 86400) ≠ [] →
        (aggregate_day db d).1 = true ∧
        (aggregate_day db d).2.daily_stats.countP (fun r => r.date = d) = 1 ∧
        (aggregate_day db d).2.daily_stats.filter (fun r => ¬ r.date = d)
          = db.daily_stats.filter (fun r => ¬ r.date = d) ∧
        (aggregate_day db d).2.measurements = db.measurements ∧
        (aggregate_day db d).2.minute_stats = db.minute_stats ∧
        (aggregate_day db d).2.hourly_stats = db.hourly_stats ∧
        (aggregate_day db d).2.pattern_averages = db.pattern_averages) := by
  refine ⟨fun h => aggregate_minute_empty h, fun h => ?_,
          fun h => aggregate_hour_empty h, fun h => ?_,
          fun h => aggregate_day_empty h, fun h => ?_⟩
  · rw [aggregate_minute_pos h]
    refine ⟨rfl, ?_, ?_, rfl, rfl, rfl, rfl⟩
    · rw [List.countP_eq_length_filter,
        filter_upsert_minute_self t w _ _ rfl rfl]
      rfl
    · exact filter_not_key_idem_minute t w _ _ rfl rfl
  · rw [aggregate_hour_pos h]
    refine ⟨rfl, ?_, ?_, rfl, rfl, rfl, rfl⟩
    · rw [List.countP_eq_length_filter, filter_upsert_hour_self hs _ _ rfl]
      rfl
    · exact filter_not_key_idem_hour hs _ _ rfl
  · rw [aggregate_day_pos h]
    refine ⟨rfl, ?_, ?_, rfl, rfl, rfl, rfl⟩
    · rw [List.countP_eq_length_filter, filter_upsert_day_self d _ _ rfl]
      rfl
    · exact filter_not_key_idem_day d _ _ rfl

unseal Rat.mul Rat.inv Rat.add Rat.sub in
/-- Witness for `no_data_behaviour`: on the concrete store `exampleDB` the
empty-window branches fire at hour 0 and the non-empty branches at the 14:00
window keys. -/
theorem no_data_behaviour_witness :
    aggregate_minute_interval exampleDB 0 15 = (false, exampleDB) ∧
    aggregate_hour exampleDB 0 = (false, exampleDB) ∧
    aggregate_day exampleDB 1 = (false, exampleDB) ∧
    (aggregate_minute_interval exampleDB 50400 15).1 = true ∧
    (aggregate_hour exampleDB 50400).1 = true ∧
    (aggregate_day exampleDB 0).1 = true := by
  refine ⟨(no_data_behaviour exampleDB 0 0 15 1).1 (by decide),
          (no_data_behaviour exampleDB 0 0 15 1).2.2.1 (by decide),
          (no_data_behaviour exampleDB 0 0 15 1).2.2.2.2.1 (by decide),
          ((no_data_behaviour exampleDB 50400 50400 15 0).2.1 (by decide)).1,
          ((no_data_behaviour exampleDB 50400 50400 15 0).2.2.2.1 (by decide)).1,
          ((no_data_behaviour exampleDB 50400 50400 15 0).2.2.2.2.2 (by decide)).1⟩

/-! ## Retention lemmas -/

theorem cleanupLoop_frame (sizeFn : DB → ℚ) (now : Nat) (maxMB : ℚ) (db : DB)
    (daysToDelete : ℤ) (acc : Nat) :
    (cleanupLoop sizeFn now maxMB db daysToDelete acc).2.minute_stats
        = db.minute_stats ∧
    (cleanupLoop sizeFn now maxMB db daysToDelete acc).2.hourly_stats
        = db.hourly_stats ∧
    (cleanupLoop sizeFn now maxMB db daysToDelete acc).2.daily_stats
        = db.daily_stats ∧
    (cleanupLoop sizeFn now maxMB db daysToDelete acc).2.pattern_averages
        = db.pattern_averages := by
  rw [cleanupLoop]
  split
  · exact cleanupLoop_frame sizeFn now maxMB _ (daysToDelete - 1) _
  · exact ⟨rfl, rfl, rfl, rfl⟩
termination_by (daysToDelete - 1).toNat
decreasing_by omega

theorem delete_older_than_keeps {db : DB} {now : Nat} {days : ℤ} {r : Reading}
    (hr : r ∈ db.measurements)
    (h : ¬((r.timestamp : ℤ) < (now : ℤ) - days * 86400)) :
    r ∈ (delete_older_than db now days).2.measurements :=
  List.mem_filter.mpr ⟨hr, decide_eq_true h⟩

theorem cleanupLoop_keeps (sizeFn : DB → ℚ) (now : Nat) (maxMB : ℚ) (db : DB)
    (daysToDelete : ℤ) (acc : Nat) (r : Reading) (hr : r ∈ db.measurements)
    (hrecent : (now : ℤ) - 86400 ≤ (r.timestamp : ℤ)) :
    r ∈ (cleanupLoop sizeFn now maxMB db daysToDelete acc).2.measurements := by
  rw [cleanupLoop]
  split
  · rename_i hcond
    refine cleanupLoop_keeps sizeFn now maxMB _ (daysToDelete - 1) _ r ?_ hrecent
    refine delete_older_than_keeps hr ?_
    have h2 := hcond.2
    omega
  · exact hr
termination_by (daysToDelete - 1).toNat
decreasing_by omega

/-- C6: the retention operations delete rows only from the raw
`measurements` table; the `minute_stats`, `hourly_stats`, `daily_stats` and
`pattern_averages` aggregate stores are unchanged by `delete_older_than` and
by `cleanup_if_size_exceeded`, for every size oracle, clock, bound and
retention argument. -/
theorem retention_touches_only_raw (sizeFn : DB → ℚ) (now : Nat) (db : DB)
    (gb : ℚ) (days daysD : ℤ) :
    (delete_older_than db now daysD).2.minute_stats = db.minute_stats ∧
    (delete_older_than db now daysD).2.hourly_stats = db.hourly_stats ∧
    (delete_older_than db now daysD).2.daily_stats = db.daily_stats ∧
    (delete_older_than db now daysD).2.pattern_averages = db.pattern_averages ∧
    (cleanup_if_size_exceeded sizeFn now db gb days).2.minute_stats
        = db.minute_stats ∧
    (cleanup_if_size_exceeded sizeFn now db gb days).2.hourly_stats
        = db.hourly_stats ∧
    (cleanup_if_size_exceeded sizeFn now db gb days).2.daily_stats
        = db.daily_stats ∧
    (cleanup_if_size_exceeded sizeFn now db gb days).2.pattern_averages
        = db.pattern_averages := by
  refine ⟨rfl, rfl, rfl, rfl, ?_, ?_, ?_, ?_⟩ <;>
    · simp only [cleanup_if_size_exceeded]
      split
      · rfl
      · have h := cleanupLoop_frame sizeFn now (gb * 1024)
          (delete_older_than db now days).2 (days - 1)
          (delete_older_than db now days).1
        first
        | exact h.1
        | exact h.2.1
        | exact h.2.2.1
        | exact h.2.2.2

/-- C5 (amended): provided the configured retention period is at least one
day, `cleanup_if_size_exceeded` never deletes a reading whose timestamp lies
within the most recent day — for every size oracle, size bound and store
state, however far the size bound is exceeded.  (The claim as frozen
quantifies over every `retentionDays`; it fails for `retentionDays ≤ 0`, see
the counterexample.) -/
theorem retention_floor_amended (sizeFn : DB → ℚ) (now : Nat) (db : DB)
    (gb : ℚ) (days : ℤ) (hdays : 1 ≤ days) (r : Reading)
    (hr : r ∈ db.measurements)
    (hrecent : (now : ℤ) - 86400 ≤ (r.timestamp : ℤ)) :
    r ∈ (cleanup_if_size_exceeded sizeFn now db gb days).2.measurements := by
  have hkeep : r ∈ (delete_older_than db now days).2.measurements :=
    delete_older_than_keeps hr (by omega)
  simp only [cleanup_if_size_exceeded]
  split
  · exact hkeep
  · exact cleanupLoop_keeps sizeFn now (gb * 1024) _ (days - 1) _ r hkeep hrecent

unseal Rat.mul Rat.inv Rat.add Rat.sub in
/-- Witness for `retention_floor_amended`: a reading 100 seconds old survives
a cleanup with a 30-day retention period and a size oracle reporting far over
the bound. -/
theorem retention_floor_witness :
    (⟨1, 999900, 500, none⟩ : Reading) ∈
      (cleanup_if_size_exceeded (fun _ => 999999) 1000000
        ⟨[⟨1, 999900, 500, none⟩], [], [], [], []⟩ 5 30).2.measurements :=
  retention_floor_amended (fun _ => 999999) 1000000
    ⟨[⟨1, 999900, 500, none⟩], [], [], [], []⟩ 5 30 (by decide)
    ⟨1, 999900, 500, none⟩ (by decide) (by decide)

unseal Rat.mul Rat.inv Rat.add Rat.sub in
/-- Counterexample to C5 as frozen: with `retentionDays = 0` the very first
`delete_older_than` pass of `cleanup_if_size_exceeded` deletes a reading
that is only 100 seconds old — well inside the most recent day — even though
the size oracle reports the store far under the bound. -/
theorem retention_floor_counterexample :
    ((1000000 : ℤ) - 86400 ≤ ((999900 : Nat) : ℤ)) ∧
    (cleanup_if_size_exceeded (fun _ => 0) 1000000
        ⟨[⟨1, 999900, 500, none⟩], [], [], [], []⟩ 5 0).2.measurements = [] := by
  constructor
  · decide
  · decide

/-! ## Day and night sub-windows partition a day -/

theorem night_eq_not_day (r : Reading) :
    (decide (DAYTIME_END ≤ hourOfDay r.timestamp ∨
        hourOfDay r.timestamp < DAYTIME_START))
      = !(decide (DAYTIME_START ≤ hourOfDay r.timestamp ∧
          hourOfDay r.timestamp < DAYTIME_END)) := by
  simp only [DAYTIME_START, DAYTIME_END]
  by_cases h : 6 ≤ hourOfDay r.timestamp ∧ hourOfDay r.timestamp < 22 <;>
    simp [h] <;> omega

theorem day_night_split (l : List Reading) :
    (dayWindowOf l).length + (nightWindowOf l).length = l.length := by
  have h1 : nightWindowOf l
      = l.filter (fun r => !(decide (DAYTIME_START ≤ hourOfDay r.timestamp ∧
          hourOfDay r.timestamp < DAYTIME_END))) :=
    List.filter_congr (fun r _ => night_eq_not_day r)
  rw [dayWindowOf, h1]
  exact (List.length_eq_length_filter_add _).symm

/-- C8: the daytime sub-window (local hour in `[DAYTIME_START, DAYTIME_END)`)
and the night sub-window (complement) partition the readings of a day: each
reading of the day window falls in exactly one of them, their lengths sum to
the day window's length, and for a non-empty day the stored
`measurement_count` is exactly that total. -/
theorem day_night_partition (db : DB) (d : Nat) :
    (∀ r ∈ windowOf db.measurements (d * 86400) (d * 86400 + 86400),
        (r ∈ dayWindowOf (windowOf db.measurements (d * 86400) (d * 86400 + 86400))
          ↔ r ∉ nightWindowOf
              (windowOf db.measurements (d * 86400) (d * 86400 + 86400)))) ∧
    (dayWindowOf (windowOf db.measurements (d * 86400) (d * 86400 + 86400))).length
        + (nightWindowOf
            (windowOf db.measurements (d * 86400) (d * 86400 + 86400))).length
      = (windowOf db.measurements (d * 86400) (d * 86400 + 86400)).length ∧
    (windowOf db.measurements (d * 86400) (d * 86400 + 86400) ≠ [] →
      ((aggregate_day db d).2.daily_stats.filter (fun row => row.date = d)).map
          (fun row => row.measurement_count)
        = [(windowOf db.measurements (d * 86400) (d * 86400 + 86400)).length]) := by
  refine ⟨?_, day_night_split _, fun h => ?_⟩
  · intro r hr
    simp only [dayWindowOf, nightWindowOf, List.mem_filter, hr, true_and,
      decide_eq_true_eq, DAYTIME_START, DAYTIME_END]
    omega
  · rw [aggregate_day_pos h, filter_upsert_day_self d _ _ rfl]
    rfl

/-- Witness for `day_night_partition`: on `exampleDB` the day-window count of
day 0 is the stored `measurement_count`, 3. -/
theorem day_night_partition_witness :
    ((aggregate_day exampleDB 0).2.daily_stats.filter
        (fun row => row.date = 0)).map (fun row => row.measurement_count)
      = [3] := by
  have h := (day_night_partition exampleDB 0).2.2 (by decide)
  exact h.trans (by decide)

/-! ## Half-open hour boundaries -/

/-- A raw store with a single reading exactly on the hour boundary 02:00:00
(timestamp 7200). -/
def boundaryDB : DB :=
  { measurements := [⟨1, 7200, 500, none⟩], minute_stats := [],
    hourly_stats := [], daily_stats := [], pattern_averages := [] }

/-- C9: a reading timestamped exactly at an aligned hour boundary `H` lies in
the selection window of `aggregate_hour H` (which therefore reports data) and
not in the window of the preceding hour; more generally a reading lies in the
window of an aligned hour `K` exactly when `K` is the hour floor of its
timestamp, so each reading belongs to exactly one hourly bucket. -/
theorem hour_boundary_exactness (db : DB) (r : Reading)
    (hr : r ∈ db.measurements) (H : Nat) (hH : H % 3600 = 0)
    (hpos : 3600 ≤ H) (ht : r.timestamp = H) :
    r ∈ windowOf db.measurements H (H + 3600) ∧
    r ∉ windowOf db.measurements (H - 3600) ((H - 3600) + 3600) ∧
    (aggregate_hour db H).1 = true ∧
    (∀ K, K % 3600 = 0 →
      (r ∈ windowOf db.measurements K (K + 3600) ↔ K = hourFloor r.timestamp)) := by
  have hin : r ∈ windowOf db.measurements H (H + 3600) :=
    List.mem_filter.mpr ⟨hr, by simp [ht]⟩
  refine ⟨hin, ?_, ?_, ?_⟩
  · intro hc
    have hcond := (List.mem_filter.mp hc).2
    simp only [decide_eq_true_eq] at hcond
    omega
  · have hne : windowOf db.measurements H (H + 3600) ≠ [] :=
      fun hnil => by rw [hnil] at hin; exact List.not_mem_nil r hin
    rw [aggregate_hour_pos hne]
  · intro K hK
    constructor
    · intro hm
      have hcond := (List.mem_filter.mp hm).2
      simp only [decide_eq_true_eq] at hcond
      unfold hourFloor
      omega
    · intro hKf
      refine List.mem_filter.mpr ⟨hr, ?_⟩
      unfold hourFloor at hKf
      simp only [decide_eq_true_eq]
      omega

/-- Witness for `hour_boundary_exactness` at the concrete boundary 7200. -/
theorem hour_boundary_witness :
    (⟨1, 7200, 500, none⟩ : Reading) ∈
        windowOf boundaryDB.measurements 7200 (7200 + 3600) ∧
    (⟨1, 7200, 500, none⟩ : Reading) ∉
        windowOf boundaryDB.measurements 3600 (3600 + 3600) := by
  have h := hour_boundary_exactness boundaryDB ⟨1, 7200, 500, none⟩
    (by decide) 7200 (by decide) (by decide) (by decide)
  exact ⟨h.1, h.2.1⟩

/-! ## The range query is a closed interval -/

instance : IsTotal Reading (fun a b => a.timestamp ≤ b.timestamp) :=
  ⟨fun a b => Nat.le_total a.timestamp b.timestamp⟩

instance : IsTrans Reading (fun a b => a.timestamp ≤ b.timestamp) :=
  ⟨fun _ _ _ => Nat.le_trans⟩

/-- C10: `get_range start end` returns exactly the readings with
`start ≤ timestamp ≤ end` — inclusive at both endpoints, as SQL `BETWEEN`
is — ordered by timestamp; whereas every aggregation selection window
excludes its end point. -/
theorem get_range_closed_interval (db : DB) (s e : Nat) :
    (∀ r : Reading, r ∈ get_range db s e ↔
        (r ∈ db.measurements ∧ s ≤ r.timestamp ∧ r.timestamp ≤ e)) ∧
    (get_range db s e).Sorted (fun a b => a.timestamp ≤ b.timestamp) ∧
    (∀ a b : Nat, ∀ r : Reading,
        r ∈ windowOf db.measurements a b → r.timestamp < b) := by
  refine ⟨?_, ?_, ?_⟩
  · intro r
    rw [get_range, List.mem_insertionSort]
    simp [List.mem_filter]
  · exact List.sorted_insertionSort _ _
  · intro a b r hm
    have hcond := (List.mem_filter.mp hm).2
    simp only [decide_eq_true_eq] at hcond
    exact hcond.2

/-- Witness for `get_range_closed_interval`: on `exampleDB` the reading
timestamped exactly at the range end 53940 is returned, and a window end is
a strict bound. -/
theorem get_range_witness :
    ((⟨3, 53940, 550, none⟩ : Reading) ∈ get_range exampleDB 50400 53940) ∧
    (⟨1, 50580, 500, none⟩ : Reading).timestamp < 50400 + 3600 := by
  have h := get_range_closed_interval exampleDB 50400 53940
  exact ⟨(h.1 _).mpr (by decide),
    h.2.2 50400 (50400 + 3600) ⟨1, 50580, 500, none⟩ (by decide)⟩

/-! ## Backfill loop lemmas -/

theorem minuteLoop_measurements (w : Nat) (db : DB) (cur stop : Nat) :
    (minuteLoop w db cur stop).measurements = db.measurements := by
  rw [minuteLoop]
  split
  · exact (minuteLoop_measurements w _ _ _).trans
      (aggregate_minute_frame db cur w).1
  · rfl
termination_by stop + w * 60 - cur
decreasing_by omega

theorem minuteLoop_hourly (w : Nat) (db : DB) (cur stop : Nat) :
    (minuteLoop w db cur stop).hourly_stats = db.hourly_stats := by
  rw [minuteLoop]
  split
  · exact (minuteLoop_hourly w _ _ _).trans
      (aggregate_minute_frame db cur w).2.1
  · rfl
termination_by stop + w * 60 - cur
decreasing_by omega

theorem hourLoop_measurements (db : DB) (cur stop : Nat) :
    (hourLoop db cur stop).measurements = db.measurements := by
  rw [hourLoop]
  split
  · exact (hourLoop_measurements _ _ _).trans (aggregate_hour_frame db cur).1
  · rfl
termination_by stop + 3600 - cur
decreasing_by omega

theorem dayLoop_hourly (db : DB) (cur stop : Nat) :
    (dayLoop db cur stop).hourly_stats = db.hourly_stats := by
  rw [dayLoop]
  split
  · exact (dayLoop_hourly _ _ _).trans (aggregate_day_frame db cur).2.2.1
  · rfl
termination_by stop + 1 - cur
decreasing_by omega

theorem aggregate_hour_filter_ne (db : DB) (t K : Nat) (h : ¬ t = K) :
    (aggregate_hour db t).2.hourly_stats.filter (fun r => r.hour_start = K)
      = db.hourly_stats.filter (fun r => r.hour_start = K) := by
  by_cases hw : windowOf db.measurements t (t + 3600) = []
  · rw [aggregate_hour_empty hw]
  · rw [aggregate_hour_pos hw]
    exact filter_upsert_hour_ne t K _ _ rfl h

theorem hourLoop_filter_lt (db : DB) (cur stop K : Nat) (h : K < cur) :
    (hourLoop db cur stop).hourly_stats.filter (fun r => r.hour_start = K)
      = db.hourly_stats.filter (fun r => r.hour_start = K) := by
  rw [hourLoop]
  split
  · exact (hourLoop_filter_lt _ _ _ K (by omega)).trans
      (aggregate_hour_filter_ne db cur K (by omega))
  · rfl
termination_by stop + 3600 - cur
decreasing_by omega

theorem hourLoop_writes (db : DB) (cur stop K : Nat)
    (h1 : cur ≤ K) (h2 : K ≤ stop) (h3 : (K - cur) % 3600 = 0)
    (hne : windowOf db.measurements K (K + 3600) ≠ []) :
    (hourLoop db cur stop).hourly_stats.filter (fun r => r.hour_start = K)
      = [hourRowFor db.measurements K] := by
  rw [hourLoop]
  split
  · rename_i hc
    by_cases hK : cur = K
    · subst hK
      rw [hourLoop_filter_lt _ _ _ cur (by omega)]
      rw [aggregate_hour_pos hne]
      exact filter_upsert_hour_self cur _ _ rfl
    · have hne2 : windowOf (aggregate_hour db cur).2.measurements
          K (K + 3600) ≠ [] := by
        rw [(aggregate_hour_frame db cur).1]; exact hne
      rw [hourLoop_writes _ _ _ K (by omega) h2 (by omega) hne2]
      rw [(aggregate_hour_frame db cur).1]
  · rename_i hc
    exact absurd (Nat.le_trans h1 h2) hc
termination_by stop + 3600 - cur
decreasing_by omega

theorem minTimestamp_le {meas : List Reading} {mn : Nat}
    (h : minTimestamp meas = some mn) : ∀ r ∈ meas, mn ≤ r.timestamp :=
  fun r hr => sqlMin_le h _ (List.mem_map_of_mem _ hr)

theorem le_maxTimestamp {meas : List Reading} {mx : Nat}
    (h : maxTimestamp meas = some mx) : ∀ r ∈ meas, r.timestamp ≤ mx :=
  fun r hr => le_sqlMax h _ (List.mem_map_of_mem _ hr)

theorem minTimestamp_isSome {meas : List Reading} (h : meas ≠ []) :
    ∃ mn, minTimestamp meas = some mn :=
  sqlMin_isSome (by simpa using h)

theorem maxTimestamp_isSome {meas : List Reading} (h : meas ≠ []) :
    ∃ mx, maxTimestamp meas = some mx :=
  sqlMax_isSome (by simpa using h)

/-- C2: after `backfill_all` on an unchanged raw store, every aligned hour
`H` that contains at least one reading has exactly one `hourly_stats` row
with `hour_start = H`, and its `co2_count` is the number of raw readings
with timestamp in `[H, H + 1h)`. -/
theorem backfill_hourly_complete (db : DB) (H : Nat) (hH : H % 3600 = 0)
    (hne : windowOf db.measurements H (H + 3600) ≠ []) :
    ((backfill_all db).hourly_stats.filter (fun row => row.hour_start = H)).map
        (fun row => row.co2_count)
      = [(windowOf db.measurements H (H + 3600)).length] := by
  obtain ⟨r, hrwin⟩ := List.exists_mem_of_ne_nil _ hne
  have hrmem : r ∈ db.measurements := (List.mem_filter.mp hrwin).1
  have hrcond := (List.mem_filter.mp hrwin).2
  simp only [decide_eq_true_eq] at hrcond
  have hmeas : db.measurements ≠ [] := fun hnil => by
    rw [hnil] at hrmem; exact List.not_mem_nil r hrmem
  obtain ⟨mn, hmn⟩ := minTimestamp_isSome hmeas
  obtain ⟨mx, hmx⟩ := maxTimestamp_isSome hmeas
  have hmnle : mn ≤ r.timestamp := minTimestamp_le hmn r hrmem
  have hmxge : r.timestamp ≤ mx := le_maxTimestamp hmx r hrmem
  simp only [backfill_all, hmn, hmx]
  rw [dayLoop_hourly]
  have hm3 : (minuteLoop 15 (minuteLoop 10 (minuteLoop 5 db (minuteFloor mn 5) mx)
      (minuteFloor mn 10) mx) (minuteFloor mn 15) mx).measurements
        = db.measurements := by
    rw [minuteLoop_measurements, minuteLoop_measurements, minuteLoop_measurements]
  have hne3 : windowOf (minuteLoop 15 (minuteLoop 10 (minuteLoop 5 db
      (minuteFloor mn 5) mx) (minuteFloor mn 10) mx)
      (minuteFloor mn 15) mx).measurements H (H + 3600) ≠ [] := by
    rw [hm3]; exact hne
  rw [hourLoop_writes _ _ _ H ?ha ?hb ?hc hne3]
  case ha =>
    unfold hourFloor
    omega
  case hb => omega
  case hc =>
    unfold hourFloor
    omega
  rw [hm3]
  rfl

/-- Witness for `backfill_hourly_complete`: the 14:00 hour of `exampleDB`. -/
theorem backfill_hourly_complete_witness :
    ((backfill_all exampleDB).hourly_stats.filter
        (fun row => row.hour_start = 50400)).map (fun row => row.co2_count)
      = [(windowOf exampleDB.measurements 50400 (50400 + 3600)).length] :=
  backfill_hourly_complete exampleDB 50400 (by decide) (by decide)

/-! ## Exactness of the per-window statistics -/

theorem window_stats_exact (s : List Reading) (h : s ≠ []) :
    ((sqlMin (co2Of s)).getD 0 ∈ co2Of s ∧
      (∀ x ∈ co2Of s, (sqlMin (co2Of s)).getD 0 ≤ x)) ∧
    ((sqlMax (co2Of s)).getD 0 ∈ co2Of s ∧
      (∀ x ∈ co2Of s, x ≤ (sqlMax (co2Of s)).getD 0)) ∧
    round1 ((sqlAvgInt (co2Of s)).getD 0)
      = round1 (((co2Of s).map (fun (z : ℤ) => (z : ℚ))).sum / (co2Of s).length) ∧
    (∀ m : ℚ, sqlMin (tempsOf s) = some m →
      m ∈ tempsOf s ∧ ∀ x ∈ tempsOf s, m ≤ x) ∧
    (∀ m : ℚ, sqlMax (tempsOf s) = some m →
      m ∈ tempsOf s ∧ ∀ x ∈ tempsOf s, x ≤ m) ∧
    (tempsOf s ≠ [] → (tempsOf s).sum / (tempsOf s).length ≠ 0 →
      roundIfTruthy (sqlAvg (tempsOf s))
        = some (round1 ((tempsOf s).sum / (tempsOf s).length))) := by
  have hco2 : co2Of s ≠ [] := by
    simpa [co2Of] using h
  obtain ⟨m1, hm1⟩ := sqlMin_isSome hco2
  obtain ⟨m2, hm2⟩ := sqlMax_isSome hco2
  have hmap : (co2Of s).map (fun (z : ℤ) => (z : ℚ)) ≠ [] :=
    fun hc => hco2 (List.map_eq_nil.mp hc)
  refine ⟨?_, ?_, ?_, ?_, ?_, ?_⟩
  · rw [hm1]
    exact ⟨sqlMin_mem hm1, sqlMin_le hm1⟩
  · rw [hm2]
    exact ⟨sqlMax_mem hm2, le_sqlMax hm2⟩
  · rw [sqlAvgInt, sqlAvg_eq hmap]
    simp only [Option.getD_some, List.length_map]
  · exact fun m hm => ⟨sqlMin_mem hm, sqlMin_le hm⟩
  · exact fun m hm => ⟨sqlMax_mem hm, le_sqlMax hm⟩
  · intro hts hmz
    rw [sqlAvg_eq hts, roundIfTruthy, if_neg hmz]

/-- A zero-temperature store: one reading with temperature exactly 0 °C in
the 14:00 hour. -/
def tempZeroDB : DB :=
  { measurements := [⟨1, 50400, 500, some 0⟩], minute_stats := [],
    hourly_stats := [], daily_stats := [], pattern_averages := [] }

unseal Rat.mul Rat.inv Rat.add Rat.sub in
/-- Counterexample to C7 as frozen: over a window whose single reading has
temperature 0 °C, the temperature mean exists and is 0, and rounding 0 to one
decimal is 0 — yet the stored `temp_avg` is `None`, because the Python guard
`round(x, 1) if x else None` treats the float `0.0` as falsy.  So a stored
average field differs from the rounded arithmetic mean although that mean
exists. -/
theorem rounding_at_write_counterexample :
    ((aggregate_hour tempZeroDB 50400).2.hourly_stats.map
        (fun row => row.temp_avg)) = [none] ∧
    sqlAvg (tempsOf (windowOf tempZeroDB.measurements 50400 (50400 + 3600)))
      = some 0 ∧
    (none : Option ℚ) ≠ some (round1 0) := by
  refine ⟨by decide, by decide, by decide⟩

/-- C7 (amended): for every bucket written by the aggregation engine —
minute, hour or day — over a non-empty window, the stored row is exactly the
computed one; its `co2_min`/`co2_max` are the exact minimum and maximum of
the window's CO2 values, stored `temp_min`/`temp_max` are the exact minimum
and maximum of the window's non-null temperatures, the unguarded `co2_avg`
always equals the arithmetic mean rounded to one decimal, and each guarded
average field (`temp_avg`, and for day buckets `co2_day_avg` and
`co2_night_avg`) equals its arithmetic mean rounded to one decimal whenever
that mean exists and is nonzero (the code's truthiness guard stores `None`
for a mean of exactly zero — see the counterexample). -/
theorem rounding_at_write (db : DB) (t hs d w : Nat) :
    (windowOf db.measurements t (t + w * 60) ≠ [] →
      (aggregate_minute_interval db t w).2.minute_stats.filter
          (fun row => row.interval_start = t ∧ row.interval_minutes = w)
          = [minuteRowFor db.measurements t w] ∧
      (minuteRowFor db.measurements t w).co2_min
          ∈ co2Of (windowOf db.measurements t (t + w * 60)) ∧
      (∀ x ∈ co2Of (windowOf db.measurements t (t + w * 60)),
        (minuteRowFor db.measurements t w).co2_min ≤ x) ∧
      (minuteRowFor db.measurements t w).co2_max
          ∈ co2Of (windowOf db.measurements t (t + w * 60)) ∧
      (∀ x ∈ co2Of (windowOf db.measurements t (t + w * 60)),
        x ≤ (minuteRowFor db.measurements t w).co2_max) ∧
      (minuteRowFor db.measurements t w).co2_avg
          = round1 (((co2Of (windowOf db.measurements t (t + w * 60))).map
              (fun (z : ℤ) => (z : ℚ))).sum
            / (co2Of (windowOf db.measurements t (t + w * 60))).length) ∧
      (∀ m : ℚ, (minuteRowFor db.measurements t w).temp_min = some m →
        m ∈ tempsOf (windowOf db.measurements t (t + w * 60)) ∧
        ∀ x ∈ tempsOf (windowOf db.measurements t (t + w * 60)), m ≤ x) ∧
      (∀ m : ℚ, (minuteRowFor db.measurements t w).temp_max = some m →
        m ∈ tempsOf (windowOf db.measurements t (t + w * 60)) ∧
        ∀ x ∈ tempsOf (windowOf db.measurements t (t + w * 60)), x ≤ m) ∧
      (tempsOf (windowOf db.measurements t (t + w * 60)) ≠ [] →
        (tempsOf (windowOf db.measurements t (t + w * 60))).sum
            / (tempsOf (windowOf db.measurements t (t + w * 60))).length ≠ 0 →
        (minuteRowFor db.measurements t w).temp_avg
          = some (round1 ((tempsOf (windowOf db.measurements t (t + w * 60))).sum
              / (tempsOf (windowOf db.measurements t (t + w * 60))).length)))) ∧
    (windowOf db.measurements hs (hs + 3600) ≠ [] →
      (aggregate_hour db hs).2.hourly_stats.filter (fun row => row.hour_start = hs)
          = [hourRowFor db.measurements hs] ∧
      (hourRowFor db.measurements hs).co2_min
          ∈ co2Of (windowOf db.measurements hs (hs + 3600)) ∧
      (∀ x ∈ co2Of (windowOf db.measurements hs (hs + 3600)),
        (hourRowFor db.measurements hs).co2_min ≤ x) ∧
      (hourRowFor db.measurements hs).co2_max
          ∈ co2Of (windowOf db.measurements hs (hs + 3600)) ∧
      (∀ x ∈ co2Of (windowOf db.measurements hs (hs + 3600)),
        x ≤ (hourRowFor db.measurements hs).co2_max) ∧
      (hourRowFor db.measurements hs).co2_avg
          = round1 (((co2Of (windowOf db.measurements hs (hs + 3600))).map
              (fun (z : ℤ) => (z : ℚ))).sum
            / (co2Of (windowOf db.measurements hs (hs + 3600))).length) ∧
      (∀ m : ℚ, (hourRowFor db.measurements hs).temp_min = some m →
        m ∈ tempsOf (windowOf db.measurements hs (hs + 3600)) ∧
        ∀ x ∈ tempsOf (windowOf db.measurements hs (hs + 3600)), m ≤ x) ∧
      (∀ m : ℚ, (hourRowFor db.measurements hs).temp_max = some m →
        m ∈ tempsOf (windowOf db.measurements hs (hs + 3600)) ∧
        ∀ x ∈ tempsOf (windowOf db.measurements hs (hs + 3600)), x ≤ m) ∧
      (tempsOf (windowOf db.measurements hs (hs + 3600)) ≠ [] →
        (tempsOf (windowOf db.measurements hs (hs + 3600))).sum
            / (tempsOf (windowOf db.measurements hs (hs + 3600))).length ≠ 0 →
        (hourRowFor db.measurements hs).temp_avg
          = some (round1 ((tempsOf (windowOf db.measurements hs (hs + 3600))).sum
              / (tempsOf (windowOf db.measurements hs (hs + 3600))).length)))) ∧
    (windowOf db.measurements (d * 86400) (d * 86400 + 86400) ≠ [] →
      (aggregate_day db d).2.daily_stats.filter (fun row => row.date = d)
          = [dayRowFor db.measurements d] ∧
      (dayRowFor db.measurements d).co2_min
          ∈ co2Of (windowOf db.measurements (d * 86400) (d * 86400 + 86400)) ∧
      (∀ x ∈ co2Of (windowOf db.measurements (d * 86400) (d * 86400 + 86400)),
        (dayRowFor db.measurements d).co2_min ≤ x) ∧
      (dayRowFor db.measurements d).co2_max
          ∈ co2Of (windowOf db.measurements (d * 86400) (d * 86400 + 86400)) ∧
      (∀ x ∈ co2Of (windowOf db.measurements (d * 86400) (d * 86400 + 86400)),
        x ≤ (dayRowFor db.measurements d).co2_max) ∧
      (dayRowFor db.measurements d).co2_avg
          = round1 (((co2Of (windowOf db.measurements (d * 86400)
              (d * 86400 + 86400))).map (fun (z : ℤ) => (z : ℚ))).sum
            / (co2Of (windowOf db.measurements (d * 86400)
                (d * 86400 + 86400))).length) ∧
      (∀ m : ℚ, (dayRowFor db.measurements d).temp_min = some m →
        m ∈ tempsOf (windowOf db.measurements (d * 86400) (d * 86400 + 86400)) ∧
        ∀ x ∈ tempsOf (windowOf db.measurements (d * 86400) (d * 86400 + 86400)),
          m ≤ x) ∧
      (∀ m : ℚ, (dayRowFor db.measurements d).temp_max = some m →
        m ∈ tempsOf (windowOf db.measurements (d * 86400) (d * 86400 + 86400)) ∧
        ∀ x ∈ tempsOf (windowOf db.measurements (d * 86400) (d * 86400 + 86400)),
          x ≤ m) ∧
      (tempsOf (windowOf db.measurements (d * 86400) (d * 86400 + 86400)) ≠ [] →
        (tempsOf (windowOf db.measurements (d * 86400) (d * 86400 + 86400))).sum
            / (tempsOf (windowOf db.measurements (d * 86400)
                (d * 86400 + 86400))).length ≠ 0 →
        (dayRowFor db.measurements d).temp_avg
          = some (round1 ((tempsOf (windowOf db.measurements (d * 86400)
                (d * 86400 + 86400))).sum
              / (tempsOf (windowOf db.measurements (d * 86400)
                  (d * 86400 + 86400))).length))) ∧
      (∀ dw : List Reading,
        dw = dayWindowOf (windowOf db.measurements (d * 86400) (d * 86400 + 86400)) →
        co2Of dw ≠ [] →
        ((co2Of dw).map (fun (z : ℤ) => (z : ℚ))).sum / (co2Of dw).length ≠ 0 →
        (dayRowFor db.measurements d).co2_day_avg
          = some (round1 (((co2Of dw).map (fun (z : ℤ) => (z : ℚ))).sum
              / (co2Of dw).length))) ∧
      (∀ nw : List Reading,
        nw = nightWindowOf (windowOf db.measurements (d * 86400) (d * 86400 + 86400)) →
        co2Of nw ≠ [] →
        ((co2Of nw).map (fun (z : ℤ) => (z : ℚ))).sum / (co2Of nw).length ≠ 0 →
        (dayRowFor db.measurements d).co2_night_avg
          = some (round1 (((co2Of nw).map (fun (z : ℤ) => (z : ℚ))).sum
              / (co2Of nw).length)))) := by
  refine ⟨?_, ?_, ?_⟩
  · intro h
    have hst := window_stats_exact _ h
    refine ⟨?_, hst.1.1, hst.1.2, hst.2.1.1, hst.2.1.2, hst.2.2.1, hst.2.2.2.1,
      hst.2.2.2.2.1, hst.2.2.2.2.2⟩
    rw [aggregate_minute_pos h]
    exact filter_upsert_minute_self t w _ _ rfl rfl
  · intro h
    have hst := window_stats_exact _ h
    refine ⟨?_, hst.1.1, hst.1.2, hst.2.1.1, hst.2.1.2, hst.2.2.1, hst.2.2.2.1,
      hst.2.2.2.2.1, hst.2.2.2.2.2⟩
    rw [aggregate_hour_pos h]
    exact filter_upsert_hour_self hs _ _ rfl
  · intro h
    have hst := window_stats_exact _ h
    refine ⟨?_, hst.1.1, hst.1.2, hst.2.1.1, hst.2.1.2, hst.2.2.1, hst.2.2.2.1,
      hst.2.2.2.2.1, hst.2.2.2.2.2, ?_, ?_⟩
    · rw [aggregate_day_pos h]
      exact filter_upsert_day_self d _ _ rfl
    · intro dw hdw hco2 hmz
      subst hdw
      have hmap : (co2Of (dayWindowOf (windowOf db.measurements (d * 86400)
          (d * 86400 + 86400)))).map (fun (z : ℤ) => (z : ℚ)) ≠ [] :=
        fun hc => hco2 (List.map_eq_nil.mp hc)
      show roundIfTruthy (sqlAvgInt _) = _
      rw [sqlAvgInt, sqlAvg_eq hmap]
      simp only [roundIfTruthy, List.length_map]
      rw [if_neg hmz]
    · intro nw hnw hco2 hmz
      subst hnw
      have hmap : (co2Of (nightWindowOf (windowOf db.measurements (d * 86400)
          (d * 86400 + 86400)))).map (fun (z : ℤ) => (z : ℚ)) ≠ [] :=
        fun hc => hco2 (List.map_eq_nil.mp hc)
      show roundIfTruthy (sqlAvgInt _) = _
      rw [sqlAvgInt, sqlAvg_eq hmap]
      simp only [roundIfTruthy, List.length_map]
      rw [if_neg hmz]

/-- A two-reading store: 500 ppm, 21.5 °C at 14:03 (daytime) and 600 ppm,
22 °C at 23:00 (night) of the epoch day. -/
def roundingDB : DB :=
  { measurements :=
      [⟨1, 50580, 500, some (43/2)⟩, ⟨2, 82800, 600, some 22⟩],
    minute_stats := [], hourly_stats := [], daily_stats := [],
    pattern_averages := [] }

unseal Rat.mul Rat.inv Rat.add Rat.sub in
/-- Witness for `rounding_at_write`: concrete exact bounds and rounded
averages on `roundingDB`, at all three resolutions. -/
theorem rounding_at_write_witness :
    (minuteRowFor roundingDB.measurements 50400 15).co2_avg = 500 ∧
    (minuteRowFor roundingDB.measurements 50400 15).temp_avg = some (43/2) ∧
    (hourRowFor roundingDB.measurements 50400).co2_avg = 500 ∧
    (hourRowFor roundingDB.measurements 50400).temp_avg = some (43/2) ∧
    ((43 : ℚ)/2) ∈ tempsOf (windowOf roundingDB.measurements 50400 (50400 + 3600)) ∧
    (dayRowFor roundingDB.measurements 0).temp_avg = some (109/5) ∧
    (dayRowFor roundingDB.measurements 0).co2_day_avg = some 500 ∧
    (dayRowFor roundingDB.measurements 0).co2_night_avg = some 600 := by
  have hm := (rounding_at_write roundingDB 50400 50400 0 15).1 (by decide)
  have hh := (rounding_at_write roundingDB 50400 50400 0 15).2.1 (by decide)
  have hd := (rounding_at_write roundingDB 50400 50400 0 15).2.2 (by decide)
  refine ⟨hm.2.2.2.2.2.1.trans (by decide),
          (hm.2.2.2.2.2.2.2.2 (by decide) (by decide)).trans (by decide),
          hh.2.2.2.2.2.1.trans (by decide),
          (hh.2.2.2.2.2.2.2.2 (by decide) (by decide)).trans (by decide),
          (hh.2.2.2.2.2.2.1 (43/2) (by decide)).1,
          (hd.2.2.2.2.2.2.2.2.1 (by decide) (by decide)).trans (by decide),
          (hd.2.2.2.2.2.2.2.2.2.1 _ rfl (by decide) (by decide)).trans (by decide),
          (hd.2.2.2.2.2.2.2.2.2.2 _ rfl (by decide) (by decide)).trans (by decide)⟩

end CO2Monitor
